import Mathlib

/-!
# USART2 bare-metal driver (`uart_baremetal.c`)

A shallow embedding of the polled USART2 driver: the memory-mapped registers
become a record of 32-bit cells, every volatile access is appended to a trace,
and the two busy-wait loops are run with an explicit bound on the number of
status polls.
-/

namespace Usart

/-! ## Register map -/

/-- The memory-mapped registers named by the `#define`s of the source. -/
inductive Reg where
  | USART_SR
  | USART_DR
  | USART2_BRR
  | USART2_CR1
  | USART2_CR2
  | USART2_CR3
  | RCC_AHB1ENR
  | RCC_APB1ENR
  | GPIOA_MODER
  | GPIOA_AFRL
  deriving DecidableEq

def USART2_Base_ADDR : Nat := 0x40004400
def GPIOA_BASE_ADDR : Nat := 0x40020000
def RCC_BASE_ADDR : Nat := 0x40023800

/-- Physical address of each register (base address plus offset). -/
def Reg.addr : Reg → Nat
  | .USART_SR => USART2_Base_ADDR + 0x00
  | .USART_DR => USART2_Base_ADDR + 0x04
  | .USART2_BRR => USART2_Base_ADDR + 0x08
  | .USART2_CR1 => USART2_Base_ADDR + 0x0C
  | .USART2_CR2 => USART2_Base_ADDR + 0x10
  | .USART2_CR3 => USART2_Base_ADDR + 0x14
  | .RCC_AHB1ENR => RCC_BASE_ADDR + 0x30
  | .RCC_APB1ENR => RCC_BASE_ADDR + 0x40
  | .GPIOA_MODER => GPIOA_BASE_ADDR + 0x00
  | .GPIOA_AFRL => GPIOA_BASE_ADDR + 0x20

/-- TXE flag: transmit data register empty. -/
def USART_SR_TXE : Nat := 1 <<< 7

/-- RXNE flag: read data register not empty. -/
def USART_SR_RXNE : Nat := 1 <<< 5

/-! ## Simulated hardware -/

/-- Contents of the registers that behave as storage: a read returns the value
last written.  The status register is not part of the store, its flags are
driven by the hardware. -/
structure Regs where
  USART_DR : Nat
  USART2_BRR : Nat
  USART2_CR1 : Nat
  USART2_CR2 : Nat
  USART2_CR3 : Nat
  RCC_AHB1ENR : Nat
  RCC_APB1ENR : Nat
  GPIOA_MODER : Nat
  GPIOA_AFRL : Nat
  deriving DecidableEq

/-- Power-on-reset store: every register holds 0. -/
def Regs.zero : Regs :=
  { USART_DR := 0, USART2_BRR := 0, USART2_CR1 := 0, USART2_CR2 := 0, USART2_CR3 := 0,
    RCC_AHB1ENR := 0, RCC_APB1ENR := 0, GPIOA_MODER := 0, GPIOA_AFRL := 0 }

/-- Store a value in a register cell; the status register is read-only. -/
def Regs.set (s : Regs) : Reg → Nat → Regs
  | .USART_SR, _ => s
  | .USART_DR, v => { s with USART_DR := v }
  | .USART2_BRR, v => { s with USART2_BRR := v }
  | .USART2_CR1, v => { s with USART2_CR1 := v }
  | .USART2_CR2, v => { s with USART2_CR2 := v }
  | .USART2_CR3, v => { s with USART2_CR3 := v }
  | .RCC_AHB1ENR, v => { s with RCC_AHB1ENR := v }
  | .RCC_APB1ENR, v => { s with RCC_APB1ENR := v }
  | .GPIOA_MODER, v => { s with GPIOA_MODER := v }
  | .GPIOA_AFRL, v => { s with GPIOA_AFRL := v }

/-- One volatile access, with the value read or written. -/
inductive Access where
  | read (r : Reg) (v : Nat)
  | write (r : Reg) (v : Nat)
  deriving DecidableEq

/-- The machine as the driver sees it: the register store, the status values the
simulated hardware presents (`sr k` answers the read of `USART_SR` that follows
`k` earlier ones), the number of status reads made so far, and the accesses
performed so far in program order. -/
structure World where
  regs : Regs
  sr : Nat → Nat
  polls : Nat
  trace : List Access

/-- Value a read of register `r` yields in world `w`. -/
def World.peek (w : World) : Reg → Nat
  | .USART_SR => w.sr w.polls
  | .USART_DR => w.regs.USART_DR
  | .USART2_BRR => w.regs.USART2_BRR
  | .USART2_CR1 => w.regs.USART2_CR1
  | .USART2_CR2 => w.regs.USART2_CR2
  | .USART2_CR3 => w.regs.USART2_CR3
  | .RCC_AHB1ENR => w.regs.RCC_AHB1ENR
  | .RCC_APB1ENR => w.regs.RCC_APB1ENR
  | .GPIOA_MODER => w.regs.GPIOA_MODER
  | .GPIOA_AFRL => w.regs.GPIOA_AFRL

/-- Volatile read of `r`: yields its value and records the access. -/
def rd (r : Reg) (w : World) : Nat × World :=
  (w.peek r,
   { w with
     polls := if r = Reg.USART_SR then w.polls + 1 else w.polls
     trace := w.trace ++ [Access.read r (w.peek r)] })

/-- Volatile write of `v` to `r`: the value is converted to `uint32_t`, stored
and the access recorded. -/
def wr (r : Reg) (v : Nat) (w : World) : World :=
  { w with
    regs := w.regs.set r (v % 2 ^ 32)
    trace := w.trace ++ [Access.write r (v % 2 ^ 32)] }

/-! ## C integer conversions -/

/-- The C expression `~x` for a non-negative `int` constant `x`, converted to
`uint32_t` as it is when combined with a register value. -/
def cnot32 (x : Nat) : Nat := 2 ^ 32 - (x + 1)

/-- Two's complement bit pattern of a 32-bit `int`. -/
def intBits (x : Int) : Nat := (x % 2 ^ 32).toNat

/-- Conversion of an integer value to `char`: reduced modulo 256 into `0..255`
when `char` is unsigned and into `-128..127` when it is signed. -/
def toChar (signedChar : Bool) (x : Int) : Int :=
  if signedChar then (x + 128) % 256 - 128 else x % 256

/-! ## Statements of `usart2_init` -/

/-- The statement `r = v;`. -/
def assign (r : Reg) (v : Nat) (w : World) : World := wr r v w

/-- The statement `r |= m;`: one read, one write. -/
def orAssign (r : Reg) (m : Nat) (w : World) : World :=
  wr r ((rd r w).1 ||| m) (rd r w).2

/-- The statement `r &= m;`: one read, one write. -/
def andAssign (r : Reg) (m : Nat) (w : World) : World :=
  wr r ((rd r w).1 &&& m) (rd r w).2

/-- Statement `RCC_AHB1ENR |= (1 << 0);` of `usart2_init`. -/
def enable_gpioa_clock : World → World := orAssign Reg.RCC_AHB1ENR (1 <<< 0)

/-- Statement `RCC_APB1ENR |= (1 << 17);` of `usart2_init`. -/
def enable_usart2_clock : World → World := orAssign Reg.RCC_APB1ENR (1 <<< 17)

/-- Statement `GPIOA_MODER &= ~((3 << 4) | (3 << 6));` of `usart2_init`. -/
def clear_pin_modes : World → World :=
  andAssign Reg.GPIOA_MODER (cnot32 ((3 <<< 4) ||| (3 <<< 6)))

/-- Statement `GPIOA_MODER |= (2 << 4) | (2 << 6);` of `usart2_init`. -/
def set_pin_modes : World → World := orAssign Reg.GPIOA_MODER ((2 <<< 4) ||| (2 <<< 6))

/-- Statement `GPIOA_AFRL &= ~((0xF << 8) | (0xF << 12));` of `usart2_init`. -/
def clear_pin_af : World → World :=
  andAssign Reg.GPIOA_AFRL (cnot32 ((0xF <<< 8) ||| (0xF <<< 12)))

/-- Statement `GPIOA_AFRL |= (7 << 8) | (7 << 12);` of `usart2_init`. -/
def set_pin_af : World → World := orAssign Reg.GPIOA_AFRL ((7 <<< 8) ||| (7 <<< 12))

/-- Statement `USART2_CR1 = 0;` of `usart2_init`. -/
def clear_cr1 : World → World := assign Reg.USART2_CR1 0

/-- Statement `USART2_BRR = 0x683;` of `usart2_init`. -/
def set_baud : World → World := assign Reg.USART2_BRR 0x683

/-- Statement `USART2_CR1 |= (1 << 3) | (1 << 2);` of `usart2_init`. -/
def enable_tx_rx : World → World := orAssign Reg.USART2_CR1 ((1 <<< 3) ||| (1 <<< 2))

/-- Statement `USART2_CR1 |= (1 << 13);` of `usart2_init`. -/
def enable_usart2 : World → World := orAssign Reg.USART2_CR1 (1 <<< 13)

/-- The clock-enable part of `usart2_init` (source lines 31-32). -/
def init_clocks (w : World) : World := enable_usart2_clock (enable_gpioa_clock w)

/-- The pin-configuration part of `usart2_init` (source lines 35-38). -/
def init_pins (w : World) : World :=
  set_pin_af (clear_pin_af (set_pin_modes (clear_pin_modes w)))

/-- The UART-configuration part of `usart2_init` (source lines 41-44). -/
def init_uart (w : World) : World :=
  enable_usart2 (enable_tx_rx (set_baud (clear_cr1 w)))

/-- Function `void usart2_init()`: the ten statements in program order. -/
def usart2_init (w : World) : World := init_uart (init_pins (init_clocks w))

/-! ## Transfer primitives -/

/-- Outcome of running a function that busy-waits: it returned `val` in world
`w`, or it was still polling in world `w` when the poll budget ran out. -/
inductive Run (α : Type) where
  | ret (val : α) (w : World)
  | spin (w : World)

/-- Sequencing of two runs. -/
def Run.bind {α β : Type} : Run α → (α → World → Run β) → Run β
  | .ret a w, f => f a w
  | .spin w, _ => .spin w

/-- Function `void usart2_write(char ch)`: `fuel` bounds the number of evaluations of the
loop condition `!(USART_SR & USART_SR_TXE)`. -/
def usart2_write : Nat → Int → World → Run Unit
  | 0, _, w => .spin w
  | fuel + 1, ch, w =>
    if (rd Reg.USART_SR w).1 &&& USART_SR_TXE = 0 then
      usart2_write fuel ch (rd Reg.USART_SR w).2
    else
      .ret () (wr Reg.USART_DR (intBits ch &&& 0xFF) (rd Reg.USART_SR w).2)

/-- Function `char usart2_read()`: `fuel` bounds the number of evaluations of the loop
condition `!(USART_SR & USART_SR_RXNE)`; the result is the `char` value of
`(char)(USART_DR & 0xFF)`. -/
def usart2_read (signedChar : Bool) : Nat → World → Run Int
  | 0, w => .spin w
  | fuel + 1, w =>
    if (rd Reg.USART_SR w).1 &&& USART_SR_RXNE = 0 then
      usart2_read signedChar fuel (rd Reg.USART_SR w).2
    else
      .ret (toChar signedChar (((rd Reg.USART_DR (rd Reg.USART_SR w).2).1 &&& 0xFF : Nat) : Int))
        (rd Reg.USART_DR (rd Reg.USART_SR w).2).2

/-- Body of the `while (1)` loop of `main`: read a character, echo it back. -/
def echo_once (signedChar : Bool) (fuel : Nat) (w : World) : Run Unit :=
  (usart2_read signedChar fuel w).bind (fun received w1 => usart2_write fuel received w1)

/-- The loop `while (1) { ... }` of `main`, cut off after `iters` iterations. -/
def echo_loop (signedChar : Bool) (fuel : Nat) : Nat → World → Run Unit
  | 0, w => .ret () w
  | iters + 1, w =>
    (echo_once signedChar fuel w).bind (fun _ w1 => echo_loop signedChar fuel iters w1)

/-- Function `int main()`: initialise, then echo; `iters` bounds the number of loop
iterations and `fuel` the polls of each busy-wait. -/
def main (signedChar : Bool) (fuel iters : Nat) (w : World) : Run Unit :=
  echo_loop signedChar fuel iters (usart2_init w)

/-- The world at power-on reset: every register 0, nothing accessed yet. -/
def World.reset (sr : Nat → Nat) : World :=
  { regs := Regs.zero, sr := sr, polls := 0, trace := [] }

/-- Values written to register `r` in a trace, in program order. -/
def writesTo (r : Reg) : List Access → List Nat
  | [] => []
  | Access.write r1 v :: t => if r1 = r then v :: writesTo r t else writesTo r t
  | Access.read _ _ :: t => writesTo r t

/-- The accesses performed by `usart2_init` when started in world `w`. -/
def usart2_init_accesses (w : World) : List Access :=
  (usart2_init w).trace.drop w.trace.length

/-- The `n` consecutive reads of `USART_SR` that begin with status read number
`start`, each with the value the hardware presents. -/
def srReads (sr : Nat → Nat) (start n : Nat) : List Access :=
  (List.range n).map (fun k => Access.read Reg.USART_SR (sr (start + k)))

/-- Value returned by a run, when it returned. -/
def Run.val? {α : Type} : Run α → Option α
  | .ret a _ => some a
  | .spin _ => none

/-- World in which a run ended or was cut off. -/
def Run.world {α : Type} : Run α → World
  | .ret _ w => w
  | .spin w => w

/-- A simulated machine at rest: data register holding `d`, every other stored
register 0, status values given by `sr`, nothing accessed yet. -/
def World.sim (sr : Nat → Nat) (d : Nat) : World :=
  { regs := { Regs.zero with USART_DR := d }, sr := sr, polls := 0, trace := [] }

/-- A status register that reads 0 on the first `n` reads and `flags` afterwards. -/
def readyAfter (n flags : Nat) : Nat → Nat := fun k => if k < n then 0 else flags

/-! ## Footprint vocabulary -/

/-- Register an access refers to. -/
def Access.reg : Access → Reg
  | .read r _ => r
  | .write r _ => r

/-- Whether an access is a write. -/
def Access.isWrite : Access → Bool
  | .read _ _ => false
  | .write _ _ => true

/-- Values read from register `r` in a trace, in program order. -/
def readsOf (r : Reg) : List Access → List Nat
  | [] => []
  | Access.read r1 v :: t => if r1 = r then v :: readsOf r t else readsOf r t
  | Access.write _ _ :: t => readsOf r t

/-- The three peripheral blocks of the register map. -/
inductive Periph where
  | RCC
  | GPIOA
  | USART2
  deriving DecidableEq

/-- Block a register belongs to, following the base address its `#define` uses. -/
def Reg.periph : Reg → Periph
  | .USART_SR => .USART2
  | .USART_DR => .USART2
  | .USART2_BRR => .USART2
  | .USART2_CR1 => .USART2
  | .USART2_CR2 => .USART2
  | .USART2_CR3 => .USART2
  | .RCC_AHB1ENR => .RCC
  | .RCC_APB1ENR => .RCC
  | .GPIOA_MODER => .GPIOA
  | .GPIOA_AFRL => .GPIOA

/-- Whether an access touches the status or the data register. -/
def Access.isTransfer (a : Access) : Bool :=
  decide (a.reg = Reg.USART_SR) || decide (a.reg = Reg.USART_DR)

/-- The store with the data register blanked: the RCC, GPIOA and USART2
control and baud registers. -/
def Regs.withoutData (s : Regs) : Regs := { s with USART_DR := 0 }

/-- World `w1` comes from `w` by accesses to the status and data registers only:
the trace is extended by such accesses, every register other than `USART_DR`
and the status behaviour are as in `w`. -/
def TransferOnly (w w1 : World) : Prop :=
  ∃ rest, w1.trace = w.trace ++ rest ∧ rest.all Access.isTransfer = true ∧
    w1.regs.withoutData = w.regs.withoutData ∧ w1.sr = w.sr

/-- Index of the first of the next `fuel` status reads (counted from status read
number `start`) that shows a bit of `flag` set, if there is one. -/
def firstReady (sr : Nat → Nat) (flag start fuel : Nat) : Option Nat :=
  (List.range fuel).find? (fun k => decide (sr (start + k) &&& flag ≠ 0))

/-! ## Bitwise facts about 32-bit values -/

theorem testBit_high {m i : Nat} (hm : m < 2 ^ 32) (hi : 32 ≤ i) : m.testBit i = false :=
  Nat.testBit_lt_two_pow (lt_of_lt_of_le hm (Nat.pow_le_pow_right (by decide) hi))

theorem testBit_cnot32 {m : Nat} (hm : m < 2 ^ 32) (i : Nat) :
    (cnot32 m).testBit i = (decide (i < 32) && !m.testBit i) := by
  unfold cnot32
  exact Nat.testBit_two_pow_sub_succ hm i

theorem or_frame (x : Nat) {m M : Nat} (hM : M < 2 ^ 32) (hsub : m &&& M = m) :
    ((x ||| m) % 2 ^ 32) &&& cnot32 M = x &&& cnot32 M := by
  apply Nat.eq_of_testBit_eq
  intro i
  have hbit : (m.testBit i && M.testBit i) = m.testBit i := by
    rw [← Nat.testBit_and, hsub]
  simp only [Nat.testBit_and, Nat.testBit_or, Nat.testBit_mod_two_pow, testBit_cnot32 hM]
  revert hbit
  cases decide (i < 32) <;> cases x.testBit i <;> cases m.testBit i <;>
    cases M.testBit i <;> simp

theorem and_frame (x : Nat) {m : Nat} (hm : m < 2 ^ 32) :
    ((x &&& cnot32 m) % 2 ^ 32) &&& cnot32 m = x &&& cnot32 m := by
  apply Nat.eq_of_testBit_eq
  intro i
  simp only [Nat.testBit_and, Nat.testBit_mod_two_pow, testBit_cnot32 hm]
  cases decide (i < 32) <;> cases x.testBit i <;> cases m.testBit i <;> rfl

theorem or_sets (x : Nat) {m : Nat} (hm : m < 2 ^ 32) : ((x ||| m) % 2 ^ 32) &&& m = m := by
  apply Nat.eq_of_testBit_eq
  intro i
  simp only [Nat.testBit_and, Nat.testBit_or, Nat.testBit_mod_two_pow]
  by_cases hi : i < 32
  · simp only [hi, decide_True]
    cases x.testBit i <;> cases m.testBit i <;> rfl
  · simp [testBit_high hm (Nat.le_of_not_lt hi)]

theorem or_idem (x m : Nat) : ((x ||| m) % 2 ^ 32 ||| m) % 2 ^ 32 = (x ||| m) % 2 ^ 32 := by
  apply Nat.eq_of_testBit_eq
  intro i
  simp only [Nat.testBit_or, Nat.testBit_mod_two_pow]
  cases decide (i < 32) <;> cases x.testBit i <;> cases m.testBit i <;> rfl

theorem clear_set_field (x : Nat) {M V : Nat} (hM : M < 2 ^ 32) (hV : V &&& M = V) :
    (((x &&& cnot32 M) % 2 ^ 32 ||| V) % 2 ^ 32) &&& M = V := by
  apply Nat.eq_of_testBit_eq
  intro i
  have hbit : (V.testBit i && M.testBit i) = V.testBit i := by
    rw [← Nat.testBit_and, hV]
  simp only [Nat.testBit_and, Nat.testBit_or, Nat.testBit_mod_two_pow, testBit_cnot32 hM]
  by_cases hi : i < 32
  · simp only [hi, decide_True]
    revert hbit
    cases x.testBit i <;> cases M.testBit i <;> cases V.testBit i <;> simp
  · have hMi := testBit_high hM (Nat.le_of_not_lt hi)
    have hVi : V.testBit i = false := by
      rw [← hbit, hMi, Bool.and_false]
    simp [hMi, hVi]

theorem field_extract (x : Nat) {M k f : Nat} (h : (f <<< k) &&& M = f <<< k) :
    (x >>> k) &&& f = ((x &&& M) >>> k) &&& f := by
  apply Nat.eq_of_testBit_eq
  intro i
  have hbit : (f.testBit i && M.testBit (k + i)) = f.testBit i := by
    have h1 := congrArg (fun n => Nat.testBit n (k + i)) h
    simpa [Nat.testBit_shiftLeft] using h1
  simp only [Nat.testBit_and, Nat.testBit_shiftRight]
  revert hbit
  cases x.testBit (k + i) <;> cases M.testBit (k + i) <;> cases f.testBit i <;> simp

/-! ## Effect of the statements of `usart2_init` -/

theorem usart2_init_regs (w : World) :
    (usart2_init w).regs =
      { USART_DR := w.regs.USART_DR
        USART2_BRR := 0x683
        USART2_CR1 := 0x200C
        USART2_CR2 := w.regs.USART2_CR2
        USART2_CR3 := w.regs.USART2_CR3
        RCC_AHB1ENR := (w.regs.RCC_AHB1ENR ||| 0x1) % 2 ^ 32
        RCC_APB1ENR := (w.regs.RCC_APB1ENR ||| 0x20000) % 2 ^ 32
        GPIOA_MODER := ((w.regs.GPIOA_MODER &&& cnot32 0xF0) % 2 ^ 32 ||| 0xA0) % 2 ^ 32
        GPIOA_AFRL := ((w.regs.GPIOA_AFRL &&& cnot32 0xFF00) % 2 ^ 32 ||| 0x7700) % 2 ^ 32 } := by
  simp [usart2_init, init_uart, init_pins, init_clocks, enable_usart2, enable_tx_rx, set_baud,
    clear_cr1, set_pin_af, clear_pin_af, set_pin_modes, clear_pin_modes, enable_usart2_clock,
    enable_gpioa_clock, orAssign, andAssign, assign, rd, wr, Regs.set, World.peek]

theorem usart2_init_trace (w : World) :
    (usart2_init w).trace = w.trace ++
      [ Access.read Reg.RCC_AHB1ENR w.regs.RCC_AHB1ENR,
        Access.write Reg.RCC_AHB1ENR ((w.regs.RCC_AHB1ENR ||| 0x1) % 2 ^ 32),
        Access.read Reg.RCC_APB1ENR w.regs.RCC_APB1ENR,
        Access.write Reg.RCC_APB1ENR ((w.regs.RCC_APB1ENR ||| 0x20000) % 2 ^ 32),
        Access.read Reg.GPIOA_MODER w.regs.GPIOA_MODER,
        Access.write Reg.GPIOA_MODER ((w.regs.GPIOA_MODER &&& cnot32 0xF0) % 2 ^ 32),
        Access.read Reg.GPIOA_MODER ((w.regs.GPIOA_MODER &&& cnot32 0xF0) % 2 ^ 32),
        Access.write Reg.GPIOA_MODER
          (((w.regs.GPIOA_MODER &&& cnot32 0xF0) % 2 ^ 32 ||| 0xA0) % 2 ^ 32),
        Access.read Reg.GPIOA_AFRL w.regs.GPIOA_AFRL,
        Access.write Reg.GPIOA_AFRL ((w.regs.GPIOA_AFRL &&& cnot32 0xFF00) % 2 ^ 32),
        Access.read Reg.GPIOA_AFRL ((w.regs.GPIOA_AFRL &&& cnot32 0xFF00) % 2 ^ 32),
        Access.write Reg.GPIOA_AFRL
          (((w.regs.GPIOA_AFRL &&& cnot32 0xFF00) % 2 ^ 32 ||| 0x7700) % 2 ^ 32),
        Access.write Reg.USART2_CR1 0,
        Access.write Reg.USART2_BRR 0x683,
        Access.read Reg.USART2_CR1 0,
        Access.write Reg.USART2_CR1 0xC,
        Access.read Reg.USART2_CR1 0xC,
        Access.write Reg.USART2_CR1 0x200C ] := by
  simp [usart2_init, init_uart, init_pins, init_clocks, enable_usart2, enable_tx_rx, set_baud,
    clear_cr1, set_pin_af, clear_pin_af, set_pin_modes, clear_pin_modes, enable_usart2_clock,
    enable_gpioa_clock, orAssign, andAssign, assign, rd, wr, Regs.set, World.peek]

theorem usart2_init_accesses_eq (w : World) :
    usart2_init_accesses w =
      [ Access.read Reg.RCC_AHB1ENR w.regs.RCC_AHB1ENR,
        Access.write Reg.RCC_AHB1ENR ((w.regs.RCC_AHB1ENR ||| 0x1) % 2 ^ 32),
        Access.read Reg.RCC_APB1ENR w.regs.RCC_APB1ENR,
        Access.write Reg.RCC_APB1ENR ((w.regs.RCC_APB1ENR ||| 0x20000) % 2 ^ 32),
        Access.read Reg.GPIOA_MODER w.regs.GPIOA_MODER,
        Access.write Reg.GPIOA_MODER ((w.regs.GPIOA_MODER &&& cnot32 0xF0) % 2 ^ 32),
        Access.read Reg.GPIOA_MODER ((w.regs.GPIOA_MODER &&& cnot32 0xF0) % 2 ^ 32),
        Access.write Reg.GPIOA_MODER
          (((w.regs.GPIOA_MODER &&& cnot32 0xF0) % 2 ^ 32 ||| 0xA0) % 2 ^ 32),
        Access.read Reg.GPIOA_AFRL w.regs.GPIOA_AFRL,
        Access.write Reg.GPIOA_AFRL ((w.regs.GPIOA_AFRL &&& cnot32 0xFF00) % 2 ^ 32),
        Access.read Reg.GPIOA_AFRL ((w.regs.GPIOA_AFRL &&& cnot32 0xFF00) % 2 ^ 32),
        Access.write Reg.GPIOA_AFRL
          (((w.regs.GPIOA_AFRL &&& cnot32 0xFF00) % 2 ^ 32 ||| 0x7700) % 2 ^ 32),
        Access.write Reg.USART2_CR1 0,
        Access.write Reg.USART2_BRR 0x683,
        Access.read Reg.USART2_CR1 0,
        Access.write Reg.USART2_CR1 0xC,
        Access.read Reg.USART2_CR1 0xC,
        Access.write Reg.USART2_CR1 0x200C ] := by
  unfold usart2_init_accesses
  rw [usart2_init_trace, List.drop_left]

/-! ## Initialisation from reset -/

/-- C1: from the all-zero register state, `usart2_init` leaves `USART2_CR1` equal to
`0x200C` (exactly bits 13, 3 and 2), `RCC_AHB1ENR` equal to `0x1` (exactly bit 0)
and `RCC_APB1ENR` equal to `0x20000` (exactly bit 17). -/
theorem usart2_init_from_reset (sr : Nat → Nat) :
    (usart2_init (World.reset sr)).regs.USART2_CR1 = 0x200C ∧
    (usart2_init (World.reset sr)).regs.USART2_CR1 = 2 ^ 13 + 2 ^ 3 + 2 ^ 2 ∧
    (usart2_init (World.reset sr)).regs.RCC_AHB1ENR = 0x1 ∧
    (usart2_init (World.reset sr)).regs.RCC_APB1ENR = 0x20000 ∧
    (0x20000 : Nat) = 2 ^ 17 := by
  simp [usart2_init, init_uart, init_pins, init_clocks, enable_usart2, enable_tx_rx, set_baud, clear_cr1, set_pin_af, clear_pin_af, set_pin_modes, clear_pin_modes, enable_usart2_clock, enable_gpioa_clock, orAssign, andAssign, assign, rd, wr, Regs.set, World.peek, World.reset, Regs.zero, cnot32]

/-! ## Pin configuration -/

/-- C2: for every prior content of `GPIOA_MODER` and `GPIOA_AFRL`, after `usart2_init`
the mode fields of pins 2 and 3 (MODER bits 5:4 and 7:6) both equal 2 and the
alternate-function fields of pins 2 and 3 (AFRL bits 11:8 and 15:12) both equal 7;
the two fields together read `0xA0` and `0x7700`, so no prior field bit survives. -/
theorem usart2_init_pin_fields (w : World) :
    ((usart2_init w).regs.GPIOA_MODER >>> 4) &&& 3 = 2 ∧
    ((usart2_init w).regs.GPIOA_MODER >>> 6) &&& 3 = 2 ∧
    ((usart2_init w).regs.GPIOA_AFRL >>> 8) &&& 0xF = 7 ∧
    ((usart2_init w).regs.GPIOA_AFRL >>> 12) &&& 0xF = 7 ∧
    (usart2_init w).regs.GPIOA_MODER &&& 0xF0 = 0xA0 ∧
    (usart2_init w).regs.GPIOA_AFRL &&& 0xFF00 = 0x7700 := by
  have hM : (usart2_init w).regs.GPIOA_MODER &&& 0xF0 = 0xA0 := by
    rw [usart2_init_regs]
    exact clear_set_field w.regs.GPIOA_MODER (by decide) (by decide)
  have hA : (usart2_init w).regs.GPIOA_AFRL &&& 0xFF00 = 0x7700 := by
    rw [usart2_init_regs]
    exact clear_set_field w.regs.GPIOA_AFRL (by decide) (by decide)
  refine ⟨?_, ?_, ?_, ?_, hM, hA⟩
  · rw [field_extract _ (by decide : (3 <<< 4) &&& 0xF0 = 3 <<< 4), hM]; decide
  · rw [field_extract _ (by decide : (3 <<< 6) &&& 0xF0 = 3 <<< 6), hM]; decide
  · rw [field_extract _ (by decide : (0xF <<< 8) &&& 0xFF00 = 0xF <<< 8), hA]; decide
  · rw [field_extract _ (by decide : (0xF <<< 12) &&& 0xFF00 = 0xF <<< 12), hA]; decide

/-! ## Frame of the read-modify-write statements -/

theorem orAssign_frame (r : Reg) {m : Nat} (hm : m < 2 ^ 32) (w : World) (hr : r ≠ Reg.USART_SR) :
    (orAssign r m w).peek r &&& cnot32 m = w.peek r &&& cnot32 m := by
  cases r <;> first
    | exact absurd rfl hr
    | exact or_frame _ hm (Nat.and_self m)

theorem andAssign_frame (r : Reg) {m : Nat} (hm : m < 2 ^ 32) (w : World)
    (hr : r ≠ Reg.USART_SR) :
    (andAssign r (cnot32 m) w).peek r &&& cnot32 m = w.peek r &&& cnot32 m := by
  cases r <;> first
    | exact absurd rfl hr
    | exact and_frame _ hm

/-- C3: every read-modify-write statement of `usart2_init` leaves the bits outside its
field as they were immediately before the statement (`new & ~mask = old & ~mask`,
for any prior register state), and so does the whole call for `RCC_AHB1ENR`
(mask `0x1`), `RCC_APB1ENR` (mask `1<<17`), `GPIOA_MODER` (mask `0xF0`) and
`GPIOA_AFRL` (mask `0xFF00`); for `USART2_CR1` the two OR-in statements preserve
the bits outside `0xC` and outside `1<<13` respectively. -/
theorem usart2_init_frame (w : World) :
    ((enable_gpioa_clock w).regs.RCC_AHB1ENR &&& cnot32 0x1
        = w.regs.RCC_AHB1ENR &&& cnot32 0x1) ∧
    ((enable_usart2_clock w).regs.RCC_APB1ENR &&& cnot32 (1 <<< 17)
        = w.regs.RCC_APB1ENR &&& cnot32 (1 <<< 17)) ∧
    ((clear_pin_modes w).regs.GPIOA_MODER &&& cnot32 0xF0
        = w.regs.GPIOA_MODER &&& cnot32 0xF0) ∧
    ((set_pin_modes w).regs.GPIOA_MODER &&& cnot32 0xF0
        = w.regs.GPIOA_MODER &&& cnot32 0xF0) ∧
    ((clear_pin_af w).regs.GPIOA_AFRL &&& cnot32 0xFF00
        = w.regs.GPIOA_AFRL &&& cnot32 0xFF00) ∧
    ((set_pin_af w).regs.GPIOA_AFRL &&& cnot32 0xFF00
        = w.regs.GPIOA_AFRL &&& cnot32 0xFF00) ∧
    ((enable_tx_rx w).regs.USART2_CR1 &&& cnot32 0xC
        = w.regs.USART2_CR1 &&& cnot32 0xC) ∧
    ((enable_usart2 w).regs.USART2_CR1 &&& cnot32 (1 <<< 13)
        = w.regs.USART2_CR1 &&& cnot32 (1 <<< 13)) ∧
    ((usart2_init w).regs.RCC_AHB1ENR &&& cnot32 0x1
        = w.regs.RCC_AHB1ENR &&& cnot32 0x1) ∧
    ((usart2_init w).regs.RCC_APB1ENR &&& cnot32 (1 <<< 17)
        = w.regs.RCC_APB1ENR &&& cnot32 (1 <<< 17)) ∧
    ((usart2_init w).regs.GPIOA_MODER &&& cnot32 0xF0
        = w.regs.GPIOA_MODER &&& cnot32 0xF0) ∧
    ((usart2_init w).regs.GPIOA_AFRL &&& cnot32 0xFF00
        = w.regs.GPIOA_AFRL &&& cnot32 0xFF00) := by
  refine ⟨?_, ?_, ?_, ?_, ?_, ?_, ?_, ?_, ?_, ?_, ?_, ?_⟩
  · exact orAssign_frame Reg.RCC_AHB1ENR (by decide) w (by decide)
  · exact orAssign_frame Reg.RCC_APB1ENR (by decide) w (by decide)
  · exact andAssign_frame Reg.GPIOA_MODER (by decide) w (by decide)
  · exact or_frame w.regs.GPIOA_MODER (by decide) (by decide)
  · exact andAssign_frame Reg.GPIOA_AFRL (by decide) w (by decide)
  · exact or_frame w.regs.GPIOA_AFRL (by decide) (by decide)
  · exact or_frame w.regs.USART2_CR1 (by decide) (by decide)
  · exact orAssign_frame Reg.USART2_CR1 (by decide) w (by decide)
  · rw [usart2_init_regs]; exact or_frame _ (by decide) (by decide)
  · rw [usart2_init_regs]; exact or_frame _ (by decide) (by decide)
  · rw [usart2_init_regs]
    exact (or_frame _ (by decide) (by decide)).trans (and_frame _ (by decide))
  · rw [usart2_init_regs]
    exact (or_frame _ (by decide) (by decide)).trans (and_frame _ (by decide))

/-! ## Order of the control-register writes -/

/-- C4: for every initial state the values written to `USART2_CR1` during
`usart2_init` are exactly `0`, `0xC`, `0x200C` in this order: first 0, then TX and RX
enable with bit 13 still clear, then bit 13 as well; every value written with
bit 13 set has bits 3 and 2 both set. -/
theorem usart2_init_cr1_sequence (w : World) :
    (usart2_init w).trace = w.trace ++ usart2_init_accesses w ∧
    writesTo Reg.USART2_CR1 (usart2_init_accesses w) = [0, 0xC, 0x200C] ∧
    (0xC : Nat) = (1 <<< 3) ||| (1 <<< 2) ∧
    (0xC : Nat) &&& (1 <<< 13) = 0 ∧
    (0x200C : Nat) = (1 <<< 13) ||| (1 <<< 3) ||| (1 <<< 2) ∧
    (writesTo Reg.USART2_CR1 (usart2_init_accesses w)).all
      (fun v => v &&& (1 <<< 13) = 0 || v &&& 0xC = 0xC) = true := by
  have hseq : writesTo Reg.USART2_CR1 (usart2_init_accesses w) = [0, 0xC, 0x200C] := by
    rw [usart2_init_accesses_eq]
    simp [writesTo]
  refine ⟨?_, hseq, by decide, by decide, by decide, ?_⟩
  · rw [usart2_init_trace, usart2_init_accesses_eq]
  · rw [hseq]
    decide

/-! ## Busy-wait loops -/

theorem srReads_zero (sr : Nat → Nat) (start : Nat) : srReads sr start 0 = [] := rfl

theorem srReads_succ (sr : Nat → Nat) (start n : Nat) :
    srReads sr start (n + 1) = Access.read Reg.USART_SR (sr start) :: srReads sr (start + 1) n := by
  unfold srReads
  rw [List.range_succ_eq_map, List.map_cons, List.map_map]
  simp only [Nat.add_zero, List.cons.injEq, true_and]
  apply List.map_congr_left
  intro k _
  simp only [Function.comp_apply, Nat.succ_eq_add_one]
  congr 2
  omega

theorem usart2_write_run (N : Nat) : ∀ (fuel : Nat) (ch : Int) (w : World),
    (∀ k, k < N → w.sr (w.polls + k) &&& USART_SR_TXE = 0) →
    w.sr (w.polls + N) &&& USART_SR_TXE ≠ 0 →
    usart2_write fuel ch w =
      if N < fuel then
        Run.ret ()
          { regs := w.regs.set Reg.USART_DR (intBits ch &&& 0xFF)
            sr := w.sr
            polls := w.polls + (N + 1)
            trace := w.trace ++ srReads w.sr w.polls (N + 1)
              ++ [Access.write Reg.USART_DR (intBits ch &&& 0xFF)] }
      else
        Run.spin
          { regs := w.regs
            sr := w.sr
            polls := w.polls + fuel
            trace := w.trace ++ srReads w.sr w.polls fuel } := by
  induction N with
  | zero =>
    intro fuel ch w _ hset
    cases fuel with
    | zero => simp [usart2_write, srReads_zero]
    | succ f =>
      have hlt : intBits ch &&& 0xFF < 4294967296 :=
        Nat.and_lt_two_pow _ (by decide : (0xFF : Nat) < 2 ^ 32)
      have hset1 : ¬ (w.sr w.polls &&& USART_SR_TXE = 0) := by simpa using hset
      simp [usart2_write, rd, wr, World.peek, hset1, srReads_succ, srReads_zero,
        Nat.mod_eq_of_lt hlt, hlt]
  | succ n ih =>
    intro fuel ch w hclear hset
    cases fuel with
    | zero => simp [usart2_write, srReads_zero]
    | succ f =>
      have h0 : w.sr w.polls &&& USART_SR_TXE = 0 := by simpa using hclear 0 (Nat.succ_pos n)
      have hstep : usart2_write (f + 1) ch w = usart2_write f ch (rd Reg.USART_SR w).2 := by
        simp [usart2_write, rd, World.peek, h0]
      rw [hstep, ih f ch (rd Reg.USART_SR w).2]
      · simp [rd, World.peek, srReads_succ w.sr w.polls, Nat.add_assoc, Nat.add_comm 1]
      · intro k hk
        have := hclear (k + 1) (Nat.succ_lt_succ hk)
        simpa [rd, Nat.add_assoc, Nat.add_comm 1] using this
      · simpa [rd, Nat.add_assoc, Nat.add_comm 1] using hset

theorem usart2_read_run (signedChar : Bool) (N : Nat) : ∀ (fuel : Nat) (w : World),
    (∀ k, k < N → w.sr (w.polls + k) &&& USART_SR_RXNE = 0) →
    w.sr (w.polls + N) &&& USART_SR_RXNE ≠ 0 →
    usart2_read signedChar fuel w =
      if N < fuel then
        Run.ret (toChar signedChar ((w.regs.USART_DR &&& 0xFF : Nat) : Int))
          { regs := w.regs
            sr := w.sr
            polls := w.polls + (N + 1)
            trace := w.trace ++ srReads w.sr w.polls (N + 1)
              ++ [Access.read Reg.USART_DR w.regs.USART_DR] }
      else
        Run.spin
          { regs := w.regs
            sr := w.sr
            polls := w.polls + fuel
            trace := w.trace ++ srReads w.sr w.polls fuel } := by
  induction N with
  | zero =>
    intro fuel w _ hset
    cases fuel with
    | zero => simp [usart2_read, srReads_zero]
    | succ f =>
      have hset1 : ¬ (w.sr w.polls &&& USART_SR_RXNE = 0) := by simpa using hset
      simp [usart2_read, rd, World.peek, hset1, srReads_succ, srReads_zero]
  | succ n ih =>
    intro fuel w hclear hset
    cases fuel with
    | zero => simp [usart2_read, srReads_zero]
    | succ f =>
      have h0 : w.sr w.polls &&& USART_SR_RXNE = 0 := by simpa using hclear 0 (Nat.succ_pos n)
      have hstep : usart2_read signedChar (f + 1) w
          = usart2_read signedChar f (rd Reg.USART_SR w).2 := by
        simp [usart2_read, rd, World.peek, h0]
      rw [hstep, ih f (rd Reg.USART_SR w).2]
      · simp [rd, World.peek, srReads_succ w.sr w.polls, Nat.add_assoc, Nat.add_comm 1]
      · intro k hk
        have := hclear (k + 1) (Nat.succ_lt_succ hk)
        simpa [rd, Nat.add_assoc, Nat.add_comm 1] using this
      · simpa [rd, Nat.add_assoc, Nat.add_comm 1] using hset

/-! ## Characters and the low byte -/

theorem and_0xFF_eq_mod (x : Nat) : x &&& 0xFF = x % 256 :=
  Nat.and_pow_two_sub_one_eq_mod x 8

theorem char_low_bits (signedChar : Bool) (z : Int) :
    intBits (toChar signedChar z) &&& 0xFF = (z % 256).toNat := by
  rw [and_0xFF_eq_mod]
  unfold intBits toChar
  cases signedChar <;> simp <;> omega

theorem char_low_bits_nat (signedChar : Bool) (x : Nat) :
    intBits (toChar signedChar (x : Int)) &&& 0xFF = x &&& 0xFF := by
  rw [char_low_bits, and_0xFF_eq_mod]
  omega

theorem writesTo_append (r : Reg) (a b : List Access) :
    writesTo r (a ++ b) = writesTo r a ++ writesTo r b := by
  induction a with
  | nil => rfl
  | cons x t ih =>
    cases x with
    | read r1 v => simpa [writesTo] using ih
    | write r1 v =>
      by_cases h : r1 = r <;> simp [writesTo, h, ih]

theorem writesTo_srReads (r : Reg) (sr : Nat → Nat) (start n : Nat) :
    writesTo r (srReads sr start n) = [] := by
  induction n generalizing start with
  | zero => rfl
  | succ n ih => rw [srReads_succ]; simpa [writesTo] using ih (start + 1)

theorem srReads_length (sr : Nat → Nat) (start n : Nat) : (srReads sr start n).length = n := by
  simp [srReads]

/-! ## Transmit -/

/-- C5: if the status register presents TXE clear on the next `N` reads and TXE set on
the read after them, `usart2_write` returns as soon as it may poll more than `N`
times; it has then made exactly `N + 1` reads of `USART_SR`, followed by its single
write to `USART_DR`.  Cut off after `fuel ≤ N` polls it is still waiting and has
only read `USART_SR`. -/
theorem usart2_write_poll_count (N fuel : Nat) (ch : Int) (w : World)
    (hclear : ∀ k, k < N → w.sr (w.polls + k) &&& USART_SR_TXE = 0)
    (hset : w.sr (w.polls + N) &&& USART_SR_TXE ≠ 0) :
    usart2_write fuel ch w =
      (if N < fuel then
        Run.ret ()
          { regs := w.regs.set Reg.USART_DR (intBits ch &&& 0xFF)
            sr := w.sr
            polls := w.polls + (N + 1)
            trace := w.trace ++ srReads w.sr w.polls (N + 1)
              ++ [Access.write Reg.USART_DR (intBits ch &&& 0xFF)] }
      else
        Run.spin
          { regs := w.regs
            sr := w.sr
            polls := w.polls + fuel
            trace := w.trace ++ srReads w.sr w.polls fuel }) ∧
    (srReads w.sr w.polls (N + 1)).length = N + 1 :=
  ⟨usart2_write_run N fuel ch w hclear hset, srReads_length _ _ _⟩

theorem usart2_write_poll_count_witness :
    (∀ k, k < 2 → (World.sim (readyAfter 2 0x80) 0).sr
        ((World.sim (readyAfter 2 0x80) 0).polls + k) &&& USART_SR_TXE = 0) ∧
    (World.sim (readyAfter 2 0x80) 0).sr
        ((World.sim (readyAfter 2 0x80) 0).polls + 2) &&& USART_SR_TXE ≠ 0 ∧
    (usart2_write 3 65 (World.sim (readyAfter 2 0x80) 0)).world.trace =
      [Access.read Reg.USART_SR 0, Access.read Reg.USART_SR 0,
       Access.read Reg.USART_SR 0x80, Access.write Reg.USART_DR 65] ∧
    (usart2_write 3 65 (World.sim (readyAfter 2 0x80) 0)).world.polls = 3 := by
  have h := (usart2_write_poll_count 2 3 65 (World.sim (readyAfter 2 0x80) 0)
    (by decide) (by decide)).1
  refine ⟨by decide, by decide, ?_, ?_⟩
  · rw [h]; decide
  · rw [h]; decide

/-- C6: for every `byte` in `0..0x1FF` passed to `usart2_write` (converted to its
`char` parameter, signed or unsigned), once the transmitter reports empty the
value written to `USART_DR` is `byte & 0xFF`, a value in `0..255`, and it is the
only value the call writes there. -/
theorem usart2_write_masks (signedChar : Bool) (byte N fuel : Nat) (w : World)
    (hbyte : byte ≤ 0x1FF)
    (hclear : ∀ k, k < N → w.sr (w.polls + k) &&& USART_SR_TXE = 0)
    (hset : w.sr (w.polls + N) &&& USART_SR_TXE ≠ 0)
    (hfuel : N < fuel) :
    (usart2_write fuel (toChar signedChar (byte : Int)) w).val? = some () ∧
    (usart2_write fuel (toChar signedChar (byte : Int)) w).world.regs.USART_DR
      = byte &&& 0xFF ∧
    writesTo Reg.USART_DR (usart2_write fuel (toChar signedChar (byte : Int)) w).world.trace
      = writesTo Reg.USART_DR w.trace ++ [byte &&& 0xFF] ∧
    byte &&& 0xFF ≤ 255 ∧
    byte &&& 0xFF = (if byte ≤ 0xFF then byte else byte - 0x100) := by
  rw [usart2_write_run N fuel _ w hclear hset, if_pos hfuel, char_low_bits_nat]
  refine ⟨rfl, rfl, ?_, ?_, ?_⟩
  · simp [Run.world, writesTo_append, writesTo_srReads, writesTo]
  · rw [and_0xFF_eq_mod]; omega
  · rw [and_0xFF_eq_mod]
    split <;> omega

theorem usart2_write_masks_witness :
    (usart2_write 1 (toChar true (0x1FF : Nat)) (World.sim (readyAfter 0 0x80) 0)).world.regs.USART_DR
      = 0xFF ∧
    toChar true (0x1FF : Nat) = -1 := by
  have h := usart2_write_masks true 0x1FF 0 1 (World.sim (readyAfter 0 0x80) 0)
    (by decide) (by decide) (by decide) (by decide)
  exact ⟨h.2.1, by decide⟩

/-! ## Receive -/

/-- C7 as stated fails when `char` is signed: with `USART_DR = 0x80` and RXNE set,
`usart2_read` returns `-128`, not `0x80`. -/
theorem usart2_read_signed_high_byte :
    (usart2_read true 1 (World.sim (readyAfter 0 0x20) 0x80)).val? = some (-128) ∧
    (usart2_read true 1 (World.sim (readyAfter 0 0x20) 0x80)).val?
      ≠ some (((World.sim (readyAfter 0 0x20) 0x80).regs.USART_DR &&& 0xFF : Nat) : Int) := by
  constructor <;> decide

/-- C7 (amended): for every content `d` of `USART_DR`, once the status register
reports RXNE set `usart2_read` returns `(char)(d & 0xFF)`: the value `d & 0xFF`
when `char` is unsigned or `d & 0xFF < 0x80`, the value `(d & 0xFF) - 256` when
`char` is signed and `d & 0xFF ≥ 0x80`; in both cases the low 8 bits of the
returned value are the low 8 bits of the data register. -/
theorem usart2_read_value (signedChar : Bool) (N fuel : Nat) (w : World)
    (hclear : ∀ k, k < N → w.sr (w.polls + k) &&& USART_SR_RXNE = 0)
    (hset : w.sr (w.polls + N) &&& USART_SR_RXNE ≠ 0)
    (hfuel : N < fuel) :
    (usart2_read signedChar fuel w).val? =
      some (if signedChar && decide (0x80 ≤ w.regs.USART_DR &&& 0xFF)
        then ((w.regs.USART_DR &&& 0xFF : Nat) : Int) - 256
        else ((w.regs.USART_DR &&& 0xFF : Nat) : Int)) ∧
    (usart2_read signedChar fuel w).val?
      = some (toChar signedChar ((w.regs.USART_DR &&& 0xFF : Nat) : Int)) ∧
    intBits (toChar signedChar ((w.regs.USART_DR &&& 0xFF : Nat) : Int)) &&& 0xFF
      = w.regs.USART_DR &&& 0xFF ∧
    w.regs.USART_DR &&& 0xFF ≤ 255 := by
  have hle : w.regs.USART_DR &&& 0xFF ≤ 255 := by
    rw [and_0xFF_eq_mod]; omega
  rw [usart2_read_run signedChar N fuel w hclear hset, if_pos hfuel]
  refine ⟨?_, rfl, ?_, hle⟩
  · simp only [Run.val?, Option.some.injEq]
    unfold toChar
    cases signedChar
    · simp; omega
    · by_cases h : 0x80 ≤ w.regs.USART_DR &&& 0xFF
      · simp [h]; omega
      · simp [h]; omega
  · rw [char_low_bits_nat, and_0xFF_eq_mod, and_0xFF_eq_mod, Nat.mod_mod]

theorem usart2_read_value_witness :
    (usart2_read false 2 (World.sim (readyAfter 1 0x20) 0x1C3)).val? = some 0xC3 ∧
    (usart2_read true 2 (World.sim (readyAfter 1 0x20) 0x1C3)).val? = some (-61) := by
  have hu := (usart2_read_value false 1 2 (World.sim (readyAfter 1 0x20) 0x1C3)
    (by decide) (by decide) (by decide)).1
  have hs := (usart2_read_value true 1 2 (World.sim (readyAfter 1 0x20) 0x1C3)
    (by decide) (by decide) (by decide)).1
  exact ⟨hu.trans (by decide), hs.trans (by decide)⟩

/-- C8: if the status register presents RXNE clear on the next `N` reads and RXNE set
on the read after them, `usart2_read` makes exactly `N + 1` reads of `USART_SR`
and then its one read of `USART_DR`; cut off after `fuel ≤ N` polls, all of which
reported RXNE clear, it has read `USART_SR` only and not `USART_DR`. -/
theorem usart2_read_poll_count (signedChar : Bool) (N fuel : Nat) (w : World)
    (hclear : ∀ k, k < N → w.sr (w.polls + k) &&& USART_SR_RXNE = 0)
    (hset : w.sr (w.polls + N) &&& USART_SR_RXNE ≠ 0) :
    usart2_read signedChar fuel w =
      (if N < fuel then
        Run.ret (toChar signedChar ((w.regs.USART_DR &&& 0xFF : Nat) : Int))
          { regs := w.regs
            sr := w.sr
            polls := w.polls + (N + 1)
            trace := w.trace ++ srReads w.sr w.polls (N + 1)
              ++ [Access.read Reg.USART_DR w.regs.USART_DR] }
      else
        Run.spin
          { regs := w.regs
            sr := w.sr
            polls := w.polls + fuel
            trace := w.trace ++ srReads w.sr w.polls fuel }) ∧
    (srReads w.sr w.polls (N + 1)).length = N + 1 ∧
    (srReads w.sr w.polls (N + 1)).getLast? = some (Access.read Reg.USART_SR (w.sr (w.polls + N))) :=
  ⟨usart2_read_run signedChar N fuel w hclear hset, srReads_length _ _ _, by
    simp [srReads, List.getLast?_eq_getElem?, List.range_succ]⟩

theorem usart2_read_poll_count_witness :
    (usart2_read false 3 (World.sim (readyAfter 2 0x20) 0x41)).world.trace =
      [Access.read Reg.USART_SR 0, Access.read Reg.USART_SR 0,
       Access.read Reg.USART_SR 0x20, Access.read Reg.USART_DR 0x41] ∧
    (usart2_read false 2 (World.sim (readyAfter 2 0x20) 0x41)).world.trace =
      [Access.read Reg.USART_SR 0, Access.read Reg.USART_SR 0] ∧
    (usart2_read false 2 (World.sim (readyAfter 2 0x20) 0x41)).val? = none := by
  have h3 := (usart2_read_poll_count false 2 3 (World.sim (readyAfter 2 0x20) 0x41)
    (by decide) (by decide)).1
  have h2 := (usart2_read_poll_count false 2 2 (World.sim (readyAfter 2 0x20) 0x41)
    (by decide) (by decide)).1
  refine ⟨?_, ?_, ?_⟩
  · rw [h3]; decide
  · rw [h2]; decide
  · rw [h2]; decide

/-! ## Echo -/

/-- C9: with RXNE set on the next status read and TXE set on the one after, one
iteration of the echo loop reads `USART_DR` (content `d`) and writes `d & 0xFF`
back to `USART_DR`, whether `char` is signed or unsigned: the passage through the
`char` returned by `usart2_read` and taken by `usart2_write` leaves the byte
unchanged. -/
theorem echo_once_writes_low_byte (signedChar : Bool) (fuel : Nat) (w : World)
    (hrx : w.sr w.polls &&& USART_SR_RXNE ≠ 0)
    (htx : w.sr (w.polls + 1) &&& USART_SR_TXE ≠ 0)
    (hfuel : 0 < fuel) :
    echo_once signedChar fuel w =
      Run.ret ()
        { regs := w.regs.set Reg.USART_DR (w.regs.USART_DR &&& 0xFF)
          sr := w.sr
          polls := w.polls + 2
          trace := w.trace ++
            [ Access.read Reg.USART_SR (w.sr w.polls),
              Access.read Reg.USART_DR w.regs.USART_DR,
              Access.read Reg.USART_SR (w.sr (w.polls + 1)),
              Access.write Reg.USART_DR (w.regs.USART_DR &&& 0xFF) ] } := by
  unfold echo_once
  rw [usart2_read_run signedChar 0 fuel w (by intro k hk; omega) (by simpa using hrx),
    if_pos hfuel]
  simp only [Run.bind]
  rw [usart2_write_run 0 fuel _ _ (by intro k hk; omega) (by simpa using htx), if_pos hfuel,
    char_low_bits_nat]
  have h2 : (w.regs.USART_DR &&& 0xFF) &&& 0xFF = w.regs.USART_DR &&& 0xFF := by
    rw [and_0xFF_eq_mod, and_0xFF_eq_mod, Nat.mod_mod]
  simp [h2, srReads_succ, srReads_zero, Regs.set, Nat.add_assoc]

theorem echo_once_writes_low_byte_witness :
    (echo_once true 1 (World.sim (readyAfter 0 0xA0) 0x41)).world.regs.USART_DR = 0x41 ∧
    writesTo Reg.USART_DR (echo_once true 1 (World.sim (readyAfter 0 0xA0) 0x41)).world.trace
      = [0x41] ∧
    (echo_once true 1 (World.sim (readyAfter 0 0xA0) 0xC3)).world.regs.USART_DR = 0xC3 := by
  have h := echo_once_writes_low_byte true 1 (World.sim (readyAfter 0 0xA0) 0x41)
    (by decide) (by decide) (by decide)
  have h1 := echo_once_writes_low_byte true 1 (World.sim (readyAfter 0 0xA0) 0xC3)
    (by decide) (by decide) (by decide)
  refine ⟨?_, ?_, ?_⟩
  · rw [h]; decide
  · rw [h]; decide
  · rw [h1]; decide

/-! ## Clock enable -/

theorem init_clocks_regs (w : World) :
    (init_clocks w).regs =
      { w.regs with
        RCC_AHB1ENR := (w.regs.RCC_AHB1ENR ||| 0x1) % 2 ^ 32
        RCC_APB1ENR := (w.regs.RCC_APB1ENR ||| 0x20000) % 2 ^ 32 } := by
  simp [init_clocks, enable_usart2_clock, enable_gpioa_clock, orAssign, rd, wr, Regs.set,
    World.peek]

/-- C10: the clock-enable step is idempotent on the register state: for every initial
content of `RCC_AHB1ENR` and `RCC_APB1ENR`, running it twice leaves the same
registers as running it once, and after it bit 0 of `RCC_AHB1ENR` and bit 17 of
`RCC_APB1ENR` are set. -/
theorem init_clocks_idempotent (w : World) :
    (init_clocks (init_clocks w)).regs = (init_clocks w).regs ∧
    (init_clocks w).regs.RCC_AHB1ENR &&& (1 <<< 0) = 1 <<< 0 ∧
    (init_clocks w).regs.RCC_APB1ENR &&& (1 <<< 17) = 1 <<< 17 := by
  refine ⟨?_, ?_, ?_⟩
  · rw [init_clocks_regs (init_clocks w), init_clocks_regs w]
    simp only [or_idem]
  · rw [init_clocks_regs]
    exact or_sets w.regs.RCC_AHB1ENR (by decide)
  · rw [init_clocks_regs]
    exact or_sets w.regs.RCC_APB1ENR (by decide)

/-! ## Shape of a busy-wait call under any status behaviour -/

theorem usart2_read_shape (signedChar : Bool) : ∀ (fuel : Nat) (w : World), ∃ n,
    usart2_read signedChar fuel w =
        Run.ret (toChar signedChar ((w.regs.USART_DR &&& 0xFF : Nat) : Int))
          { regs := w.regs
            sr := w.sr
            polls := w.polls + (n + 1)
            trace := w.trace ++ srReads w.sr w.polls (n + 1)
              ++ [Access.read Reg.USART_DR w.regs.USART_DR] } ∨
    usart2_read signedChar fuel w =
        Run.spin
          { regs := w.regs
            sr := w.sr
            polls := w.polls + n
            trace := w.trace ++ srReads w.sr w.polls n } := by
  intro fuel
  induction fuel with
  | zero =>
    intro w
    exact ⟨0, Or.inr (by simp [usart2_read, srReads_zero])⟩
  | succ f ih =>
    intro w
    by_cases h0 : w.sr w.polls &&& USART_SR_RXNE = 0
    · have hstep : usart2_read signedChar (f + 1) w
          = usart2_read signedChar f (rd Reg.USART_SR w).2 := by
        simp [usart2_read, rd, World.peek, h0]
      obtain ⟨n, hn⟩ := ih (rd Reg.USART_SR w).2
      refine ⟨n + 1, ?_⟩
      rw [hstep]
      rcases hn with hn | hn
      · left
        rw [hn]
        simp [rd, World.peek, srReads_succ w.sr w.polls, Nat.add_assoc, Nat.add_comm 1]
      · right
        rw [hn]
        simp [rd, World.peek, srReads_succ w.sr w.polls, Nat.add_assoc, Nat.add_comm 1]
    · exact ⟨0, Or.inl (by
        simp [usart2_read, rd, World.peek, h0, srReads_succ, srReads_zero])⟩

theorem usart2_write_shape (ch : Int) : ∀ (fuel : Nat) (w : World), ∃ n,
    usart2_write fuel ch w =
        Run.ret ()
          { regs := w.regs.set Reg.USART_DR (intBits ch &&& 0xFF)
            sr := w.sr
            polls := w.polls + (n + 1)
            trace := w.trace ++ srReads w.sr w.polls (n + 1)
              ++ [Access.write Reg.USART_DR (intBits ch &&& 0xFF)] } ∨
    usart2_write fuel ch w =
        Run.spin
          { regs := w.regs
            sr := w.sr
            polls := w.polls + n
            trace := w.trace ++ srReads w.sr w.polls n } := by
  intro fuel
  induction fuel with
  | zero =>
    intro w
    exact ⟨0, Or.inr (by simp [usart2_write, srReads_zero])⟩
  | succ f ih =>
    intro w
    by_cases h0 : w.sr w.polls &&& USART_SR_TXE = 0
    · have hstep : usart2_write (f + 1) ch w = usart2_write f ch (rd Reg.USART_SR w).2 := by
        simp [usart2_write, rd, World.peek, h0]
      obtain ⟨n, hn⟩ := ih (rd Reg.USART_SR w).2
      refine ⟨n + 1, ?_⟩
      rw [hstep]
      rcases hn with hn | hn
      · left
        rw [hn]
        simp [rd, World.peek, srReads_succ w.sr w.polls, Nat.add_assoc, Nat.add_comm 1]
      · right
        rw [hn]
        simp [rd, World.peek, srReads_succ w.sr w.polls, Nat.add_assoc, Nat.add_comm 1]
    · have hlt : intBits ch &&& 0xFF < 4294967296 :=
        Nat.and_lt_two_pow _ (by decide : (0xFF : Nat) < 2 ^ 32)
      exact ⟨0, Or.inl (by
        simp [usart2_write, rd, wr, World.peek, h0, srReads_succ, srReads_zero,
          Nat.mod_eq_of_lt hlt, hlt])⟩

/-! ## Accesses of the transfer primitives stay within status and data register -/

theorem TransferOnly.refl (w : World) : TransferOnly w w :=
  ⟨[], by simp, rfl, rfl, rfl⟩

theorem TransferOnly.trans {a b c : World} (h1 : TransferOnly a b) (h2 : TransferOnly b c) :
    TransferOnly a c := by
  obtain ⟨r1, ht1, ha1, hr1, hs1⟩ := h1
  obtain ⟨r2, ht2, ha2, hr2, hs2⟩ := h2
  refine ⟨r1 ++ r2, ?_, ?_, hr2.trans hr1, hs2.trans hs1⟩
  · rw [ht2, ht1, List.append_assoc]
  · rw [List.all_append, ha1, ha2]; rfl

theorem srReads_all_transfer (sr : Nat → Nat) (start n : Nat) :
    (srReads sr start n).all Access.isTransfer = true := by
  simp [srReads, Access.isTransfer, Access.reg]

theorem usart2_read_transferOnly (signedChar : Bool) (fuel : Nat) (w : World) :
    TransferOnly w (usart2_read signedChar fuel w).world := by
  obtain ⟨n, h | h⟩ := usart2_read_shape signedChar fuel w
  · rw [h]
    refine ⟨srReads w.sr w.polls (n + 1) ++ [Access.read Reg.USART_DR w.regs.USART_DR],
      by simp [Run.world], ?_, rfl, rfl⟩
    rw [List.all_append, srReads_all_transfer]
    rfl
  · rw [h]
    exact ⟨srReads w.sr w.polls n, rfl, srReads_all_transfer _ _ _, rfl, rfl⟩

theorem usart2_write_transferOnly (fuel : Nat) (ch : Int) (w : World) :
    TransferOnly w (usart2_write fuel ch w).world := by
  obtain ⟨n, h | h⟩ := usart2_write_shape ch fuel w
  · rw [h]
    refine ⟨srReads w.sr w.polls (n + 1) ++ [Access.write Reg.USART_DR (intBits ch &&& 0xFF)],
      by simp [Run.world], ?_, rfl, rfl⟩
    rw [List.all_append, srReads_all_transfer]
    rfl
  · rw [h]
    exact ⟨srReads w.sr w.polls n, rfl, srReads_all_transfer _ _ _, rfl, rfl⟩

theorem echo_once_transferOnly (signedChar : Bool) (fuel : Nat) (w : World) :
    TransferOnly w (echo_once signedChar fuel w).world := by
  have hr := usart2_read_transferOnly signedChar fuel w
  unfold echo_once
  cases hrun : usart2_read signedChar fuel w with
  | ret c w1 =>
    rw [hrun] at hr
    exact hr.trans (usart2_write_transferOnly fuel c w1)
  | spin w1 =>
    rw [hrun] at hr
    exact hr

theorem echo_loop_transferOnly (signedChar : Bool) (fuel : Nat) :
    ∀ (iters : Nat) (w : World), TransferOnly w (echo_loop signedChar fuel iters w).world := by
  intro iters
  induction iters with
  | zero => intro w; exact TransferOnly.refl w
  | succ k ih =>
    intro w
    have h1 := echo_once_transferOnly signedChar fuel w
    unfold echo_loop
    cases hrun : echo_once signedChar fuel w with
    | ret u w1 =>
      rw [hrun] at h1
      exact h1.trans (ih w1)
    | spin w1 =>
      rw [hrun] at h1
      exact h1

theorem main_transferOnly (signedChar : Bool) (fuel iters : Nat) (w : World) :
    TransferOnly (usart2_init w) (main signedChar fuel iters w).world :=
  echo_loop_transferOnly signedChar fuel iters (usart2_init w)

/-! ## Registers of the UART after initialisation -/

theorem usart2_init_cr1 (w : World) : (usart2_init w).regs.USART2_CR1 = 0x200C := by
  rw [usart2_init_regs]

theorem usart2_init_brr (w : World) : (usart2_init w).regs.USART2_BRR = 0x683 := by
  rw [usart2_init_regs]

theorem usart2_init_cr2 (w : World) : (usart2_init w).regs.USART2_CR2 = w.regs.USART2_CR2 := by
  rw [usart2_init_regs]

theorem usart2_init_cr3 (w : World) : (usart2_init w).regs.USART2_CR3 = w.regs.USART2_CR3 := by
  rw [usart2_init_regs]

theorem usart2_init_dr (w : World) : (usart2_init w).regs.USART_DR = w.regs.USART_DR := by
  rw [usart2_init_regs]

/-! ## Framing -/

/-- C11 as stated fails: `usart2_init` never writes `USART2_CR2` or `USART2_CR3`, so a
stop-bit field of 2 and flow-control bits set before the call are still there
after it. -/
theorem usart2_init_keeps_prior_framing :
    ((usart2_init
        { regs := { Regs.zero with USART2_CR2 := 0x2000, USART2_CR3 := 0x300 }
          sr := fun _ => 0, polls := 0, trace := [] }).regs.USART2_CR2 >>> 12) &&& 3 = 2 ∧
    (usart2_init
        { regs := { Regs.zero with USART2_CR2 := 0x2000, USART2_CR3 := 0x300 }
          sr := fun _ => 0, polls := 0, trace := [] }).regs.USART2_CR3 &&& 0x300 = 0x300 := by
  constructor <;> rw [usart2_init_regs] <;> decide

/-- C11 (amended): for every initial state, after `usart2_init` the word-length bit 12
and the parity-enable bit 10 of `USART2_CR1` are clear, and `USART2_CR1` and
`USART2_BRR` do not depend on the state before the call; `USART2_CR2` and
`USART2_CR3` are left as they were, so the stop-bit field and the flow-control
bits keep their prior values, which are 0 in the power-on-reset state. -/
theorem usart2_init_framing (w w2 : World) (sr : Nat → Nat) :
    (usart2_init w).regs.USART2_CR1 &&& (1 <<< 12) = 0 ∧
    (usart2_init w).regs.USART2_CR1 &&& (1 <<< 10) = 0 ∧
    (usart2_init w).regs.USART2_CR1 = (usart2_init w2).regs.USART2_CR1 ∧
    (usart2_init w).regs.USART2_BRR = (usart2_init w2).regs.USART2_BRR ∧
    (usart2_init w).regs.USART2_CR2 = w.regs.USART2_CR2 ∧
    (usart2_init w).regs.USART2_CR3 = w.regs.USART2_CR3 ∧
    ((usart2_init (World.reset sr)).regs.USART2_CR2 >>> 12) &&& 3 = 0 ∧
    (usart2_init (World.reset sr)).regs.USART2_CR3 &&& ((1 <<< 9) ||| (1 <<< 8)) = 0 := by
  have hz2 : (World.reset sr).regs.USART2_CR2 = 0 := rfl
  have hz3 : (World.reset sr).regs.USART2_CR3 = 0 := rfl
  simp only [usart2_init_cr1, usart2_init_brr, usart2_init_cr2, usart2_init_cr3, hz2, hz3]
  decide

/-! ## Baud rate -/

/-- C12: for every initial state `USART2_BRR` is `0x683` after `usart2_init`; 0x683 = 1667
is the integer nearest to 16 000 000 / 9600, its integer part `0x68 = 104` fits
12 bits and its fraction is 3, and the rate 16 000 000 / 1667 differs from 9600 by
less than 1 %. -/
theorem usart2_init_baud (w : World) :
    (usart2_init w).regs.USART2_BRR = 0x683 ∧
    (usart2_init w).regs.USART2_BRR = 1667 ∧
    |((usart2_init w).regs.USART2_BRR : ℚ) - 16000000 / 9600| < 1 / 2 ∧
    (usart2_init w).regs.USART2_BRR >>> 4 = 0x68 ∧
    (usart2_init w).regs.USART2_BRR >>> 4 = 104 ∧
    (usart2_init w).regs.USART2_BRR >>> 4 < 2 ^ 12 ∧
    (usart2_init w).regs.USART2_BRR &&& 0xF = 3 ∧
    (usart2_init w).regs.USART2_BRR = 16 * 104 + 3 ∧
    |(16000000 : ℚ) / ((usart2_init w).regs.USART2_BRR : ℚ) - 9600| < 9600 / 100 := by
  have h : (usart2_init w).regs.USART2_BRR = 1667 := usart2_init_brr w
  rw [h]
  refine ⟨rfl, rfl, ?_, by decide, by decide, by decide, by decide, rfl, ?_⟩
  · rw [abs_lt]; constructor <;> norm_num
  · rw [abs_lt]; constructor <;> norm_num

/-! ## Order of the accesses -/

theorem usart2_init_trace_accesses (w : World) :
    (usart2_init w).trace = w.trace ++ usart2_init_accesses w := by
  rw [usart2_init_trace, usart2_init_accesses_eq]

/-- C13: the accesses of `usart2_init` are, in order, four to RCC registers (among them
the writes that set bit 0 of `RCC_AHB1ENR` and bit 17 of `RCC_APB1ENR`), then eight to
GPIOA registers, then six to USART2 registers, none of them to `USART_SR` or
`USART_DR`; in `main` the trace is that of `usart2_init` followed by accesses to
`USART_SR` and `USART_DR` only, so each of these comes after the initialisation. -/
theorem usart2_init_order (signedChar : Bool) (fuel iters : Nat) (w : World) :
    (usart2_init_accesses w).map Access.reg =
      [ Reg.RCC_AHB1ENR, Reg.RCC_AHB1ENR, Reg.RCC_APB1ENR, Reg.RCC_APB1ENR,
        Reg.GPIOA_MODER, Reg.GPIOA_MODER, Reg.GPIOA_MODER, Reg.GPIOA_MODER,
        Reg.GPIOA_AFRL, Reg.GPIOA_AFRL, Reg.GPIOA_AFRL, Reg.GPIOA_AFRL,
        Reg.USART2_CR1, Reg.USART2_BRR, Reg.USART2_CR1, Reg.USART2_CR1,
        Reg.USART2_CR1, Reg.USART2_CR1 ] ∧
    (usart2_init_accesses w).map (fun a => a.reg.periph) =
      List.replicate 4 Periph.RCC ++ List.replicate 8 Periph.GPIOA
        ++ List.replicate 6 Periph.USART2 ∧
    (usart2_init_accesses w).take 4 =
      [ Access.read Reg.RCC_AHB1ENR w.regs.RCC_AHB1ENR,
        Access.write Reg.RCC_AHB1ENR ((w.regs.RCC_AHB1ENR ||| 0x1) % 2 ^ 32),
        Access.read Reg.RCC_APB1ENR w.regs.RCC_APB1ENR,
        Access.write Reg.RCC_APB1ENR ((w.regs.RCC_APB1ENR ||| 0x20000) % 2 ^ 32) ] ∧
    ((w.regs.RCC_AHB1ENR ||| 0x1) % 2 ^ 32) &&& (1 <<< 0) = 1 <<< 0 ∧
    ((w.regs.RCC_APB1ENR ||| 0x20000) % 2 ^ 32) &&& (1 <<< 17) = 1 <<< 17 ∧
    (usart2_init_accesses w).all (fun a => !a.isTransfer) = true ∧
    ∃ rest, (main signedChar fuel iters w).world.trace
        = w.trace ++ usart2_init_accesses w ++ rest ∧
      rest.all Access.isTransfer = true := by
  refine ⟨?_, ?_, ?_, or_sets _ (by decide), or_sets _ (by decide), ?_, ?_⟩
  · rw [usart2_init_accesses_eq]; rfl
  · rw [usart2_init_accesses_eq]; rfl
  · rw [usart2_init_accesses_eq]; rfl
  · rw [usart2_init_accesses_eq]; rfl
  · obtain ⟨rest, ht, ha, _, _⟩ := main_transferOnly signedChar fuel iters w
    exact ⟨rest, by rw [ht, usart2_init_trace_accesses], ha⟩

/-! ## Module and clock stay enabled -/

theorem clear_set_idem (x V : Nat) {M : Nat} (hM : M < 2 ^ 32) :
    ((((x &&& cnot32 M) % 2 ^ 32 ||| V) % 2 ^ 32 &&& cnot32 M) % 2 ^ 32 ||| V) % 2 ^ 32
      = ((x &&& cnot32 M) % 2 ^ 32 ||| V) % 2 ^ 32 := by
  apply Nat.eq_of_testBit_eq
  intro i
  simp only [Nat.testBit_and, Nat.testBit_or, Nat.testBit_mod_two_pow, testBit_cnot32 hM]
  cases decide (i < 32) <;> cases x.testBit i <;> cases M.testBit i <;>
    cases V.testBit i <;> rfl

theorem usart2_init_polls (w : World) :
    (usart2_init w).polls = w.polls ∧ (usart2_init w).sr = w.sr := by
  simp [usart2_init, init_uart, init_pins, init_clocks, enable_usart2, enable_tx_rx, set_baud,
    clear_cr1, set_pin_af, clear_pin_af, set_pin_modes, clear_pin_modes, enable_usart2_clock,
    enable_gpioa_clock, orAssign, andAssign, assign, rd, wr]

/-- C15: over the register store, where a read returns the last value written,
`usart2_init` run twice leaves the same register state as `usart2_init` run once,
for every initial state. -/
theorem usart2_init_idempotent (w : World) :
    (usart2_init (usart2_init w)).regs = (usart2_init w).regs ∧
    (usart2_init (usart2_init w)).sr = (usart2_init w).sr ∧
    (usart2_init (usart2_init w)).polls = (usart2_init w).polls := by
  refine ⟨?_, (usart2_init_polls _).2, (usart2_init_polls _).1⟩
  rw [usart2_init_regs (usart2_init w), usart2_init_regs w]
  simp only [or_idem,
    clear_set_idem _ _ (by decide : (0xF0 : Nat) < 2 ^ 32),
    clear_set_idem _ _ (by decide : (0xFF00 : Nat) < 2 ^ 32)]

/-! ## Access footprint -/

theorem readsOf_append (r : Reg) (a b : List Access) :
    readsOf r (a ++ b) = readsOf r a ++ readsOf r b := by
  induction a with
  | nil => rfl
  | cons x t ih =>
    cases x with
    | write r1 v => simpa [readsOf] using ih
    | read r1 v =>
      by_cases h : r1 = r <;> simp [readsOf, h, ih]

theorem readsOf_DR_srReads (sr : Nat → Nat) (start n : Nat) :
    readsOf Reg.USART_DR (srReads sr start n) = [] := by
  induction n generalizing start with
  | zero => rfl
  | succ n ih => rw [srReads_succ]; simpa [readsOf] using ih (start + 1)

theorem filter_isWrite_srReads (sr : Nat → Nat) (start n : Nat) :
    (srReads sr start n).filter Access.isWrite = [] := by
  simp [srReads, Access.isWrite]

theorem usart2_read_footprint (signedChar : Bool) (fuel : Nat) (w : World) :
    (∃ n, (usart2_read signedChar fuel w).world.trace
        = w.trace ++ (srReads w.sr w.polls n ++
          (if (usart2_read signedChar fuel w).val?.isSome
            then [Access.read Reg.USART_DR w.regs.USART_DR] else []))) ∧
    (usart2_read signedChar fuel w).world.regs = w.regs := by
  obtain ⟨n, h | h⟩ := usart2_read_shape signedChar fuel w
  · rw [h]
    exact ⟨⟨n + 1, by simp [Run.world, Run.val?]⟩, rfl⟩
  · rw [h]
    exact ⟨⟨n, by simp [Run.world, Run.val?]⟩, rfl⟩

theorem usart2_write_footprint (fuel : Nat) (ch : Int) (w : World) :
    (∃ n, (usart2_write fuel ch w).world.trace
        = w.trace ++ (srReads w.sr w.polls n ++
          (if (usart2_write fuel ch w).val?.isSome
            then [Access.write Reg.USART_DR (intBits ch &&& 0xFF)] else []))) ∧
    (usart2_write fuel ch w).world.regs.withoutData = w.regs.withoutData := by
  obtain ⟨n, h | h⟩ := usart2_write_shape ch fuel w
  · rw [h]
    exact ⟨⟨n + 1, by simp [Run.world, Run.val?]⟩, rfl⟩
  · rw [h]
    exact ⟨⟨n, by simp [Run.world, Run.val?]⟩, rfl⟩

theorem firstReady_zero (sr : Nat → Nat) (flag start : Nat) :
    firstReady sr flag start 0 = none := rfl

theorem firstReady_succ (sr : Nat → Nat) (flag start fuel : Nat) :
    firstReady sr flag start (fuel + 1) =
      if sr start &&& flag = 0 then (firstReady sr flag (start + 1) fuel).map (fun k => k + 1)
      else some 0 := by
  unfold firstReady
  rw [List.range_succ_eq_map, List.find?_cons]
  by_cases h : sr start &&& flag = 0
  · simp only [Nat.add_zero, h, ne_eq, not_true_eq_false, decide_False, if_true,
      List.find?_map]
    congr 2
    funext k
    simp only [Function.comp_apply, Nat.succ_eq_add_one, Nat.add_assoc, Nat.add_comm 1]
  · simp [h]

theorem usart2_read_first (signedChar : Bool) : ∀ (fuel : Nat) (w : World),
    usart2_read signedChar fuel w =
      (firstReady w.sr USART_SR_RXNE w.polls fuel).elim
        (Run.spin
          { regs := w.regs
            sr := w.sr
            polls := w.polls + fuel
            trace := w.trace ++ srReads w.sr w.polls fuel })
        (fun N => Run.ret (toChar signedChar ((w.regs.USART_DR &&& 0xFF : Nat) : Int))
          { regs := w.regs
            sr := w.sr
            polls := w.polls + (N + 1)
            trace := w.trace ++ srReads w.sr w.polls (N + 1)
              ++ [Access.read Reg.USART_DR w.regs.USART_DR] }) := by
  intro fuel
  induction fuel with
  | zero =>
    intro w
    simp [usart2_read, firstReady_zero, srReads_zero]
  | succ f ih =>
    intro w
    rw [firstReady_succ]
    by_cases h0 : w.sr w.polls &&& USART_SR_RXNE = 0
    · have hstep : usart2_read signedChar (f + 1) w
          = usart2_read signedChar f (rd Reg.USART_SR w).2 := by
        simp [usart2_read, rd, World.peek, h0]
      rw [hstep, ih (rd Reg.USART_SR w).2, if_pos h0]
      have hsr : (rd Reg.USART_SR w).2.sr = w.sr := rfl
      have hpolls : (rd Reg.USART_SR w).2.polls = w.polls + 1 := by simp [rd]
      rw [hsr, hpolls]
      cases firstReady w.sr USART_SR_RXNE (w.polls + 1) f with
      | none =>
        simp [rd, World.peek, srReads_succ w.sr w.polls, Nat.add_assoc, Nat.add_comm 1]
      | some N =>
        simp [rd, World.peek, srReads_succ w.sr w.polls, Nat.add_assoc, Nat.add_comm 1]
    · rw [if_neg h0]
      simp [usart2_read, rd, World.peek, h0, srReads_succ, srReads_zero]

theorem usart2_write_first (ch : Int) : ∀ (fuel : Nat) (w : World),
    usart2_write fuel ch w =
      (firstReady w.sr USART_SR_TXE w.polls fuel).elim
        (Run.spin
          { regs := w.regs
            sr := w.sr
            polls := w.polls + fuel
            trace := w.trace ++ srReads w.sr w.polls fuel })
        (fun N => Run.ret ()
          { regs := w.regs.set Reg.USART_DR (intBits ch &&& 0xFF)
            sr := w.sr
            polls := w.polls + (N + 1)
            trace := w.trace ++ srReads w.sr w.polls (N + 1)
              ++ [Access.write Reg.USART_DR (intBits ch &&& 0xFF)] }) := by
  intro fuel
  induction fuel with
  | zero =>
    intro w
    simp [usart2_write, firstReady_zero, srReads_zero]
  | succ f ih =>
    intro w
    rw [firstReady_succ]
    by_cases h0 : w.sr w.polls &&& USART_SR_TXE = 0
    · have hstep : usart2_write (f + 1) ch w = usart2_write f ch (rd Reg.USART_SR w).2 := by
        simp [usart2_write, rd, World.peek, h0]
      rw [hstep, ih (rd Reg.USART_SR w).2, if_pos h0]
      have hsr : (rd Reg.USART_SR w).2.sr = w.sr := rfl
      have hpolls : (rd Reg.USART_SR w).2.polls = w.polls + 1 := by simp [rd]
      rw [hsr, hpolls]
      cases firstReady w.sr USART_SR_TXE (w.polls + 1) f with
      | none =>
        simp [rd, World.peek, srReads_succ w.sr w.polls, Nat.add_assoc, Nat.add_comm 1]
      | some N =>
        simp [rd, World.peek, srReads_succ w.sr w.polls, Nat.add_assoc, Nat.add_comm 1]
    · have hlt : intBits ch &&& 0xFF < 4294967296 :=
        Nat.and_lt_two_pow _ (by decide : (0xFF : Nat) < 2 ^ 32)
      rw [if_neg h0]
      simp [usart2_write, rd, wr, World.peek, h0, srReads_succ, srReads_zero,
        Nat.mod_eq_of_lt hlt, hlt]

theorem firstReady_isSome (sr : Nat → Nat) (flag start fuel : Nat) :
    (firstReady sr flag start fuel).isSome
      = (List.range fuel).any (fun k => decide (sr (start + k) &&& flag ≠ 0)) := by
  unfold firstReady
  rw [Bool.eq_iff_iff, List.find?_isSome, List.any_eq_true]

/-- C16: `usart2_read` returns exactly when one of the status reads its poll budget
allows shows RXNE; it has then made its status reads followed by exactly one read
of `USART_DR`, and no write.  `usart2_write` returns exactly when one of its status
reads shows TXE; it has then made its status reads followed by exactly one write, to
`USART_DR`, and no read of `USART_DR`.  A call still polling has only read
`USART_SR`.  Both leave every RCC, GPIOA and USART2 control and baud register
unchanged.  `usart2_init` writes none of `USART_SR`, `USART_DR`, `USART2_CR2`,
`USART2_CR3`, which hold after it the values they held before. -/
theorem transfer_footprint (signedChar : Bool) (fuel : Nat) (ch : Int) (w : World) :
    usart2_read signedChar fuel w =
      (firstReady w.sr USART_SR_RXNE w.polls fuel).elim
        (Run.spin
          { regs := w.regs
            sr := w.sr
            polls := w.polls + fuel
            trace := w.trace ++ srReads w.sr w.polls fuel })
        (fun N => Run.ret (toChar signedChar ((w.regs.USART_DR &&& 0xFF : Nat) : Int))
          { regs := w.regs
            sr := w.sr
            polls := w.polls + (N + 1)
            trace := w.trace ++ srReads w.sr w.polls (N + 1)
              ++ [Access.read Reg.USART_DR w.regs.USART_DR] }) ∧
    (usart2_read signedChar fuel w).val?.isSome
      = (List.range fuel).any (fun k => decide (w.sr (w.polls + k) &&& USART_SR_RXNE ≠ 0)) ∧
    (∀ N, (∀ k, k < N → w.sr (w.polls + k) &&& USART_SR_RXNE = 0) →
      w.sr (w.polls + N) &&& USART_SR_RXNE ≠ 0 → N < fuel →
      usart2_read signedChar fuel w =
        Run.ret (toChar signedChar ((w.regs.USART_DR &&& 0xFF : Nat) : Int))
          { regs := w.regs
            sr := w.sr
            polls := w.polls + (N + 1)
            trace := w.trace ++ srReads w.sr w.polls (N + 1)
              ++ [Access.read Reg.USART_DR w.regs.USART_DR] } ∧
      readsOf Reg.USART_DR ((usart2_read signedChar fuel w).world.trace.drop w.trace.length)
        = [w.regs.USART_DR]) ∧
    (∃ n, (usart2_read signedChar fuel w).world.trace
        = w.trace ++ (srReads w.sr w.polls n ++
          (if (usart2_read signedChar fuel w).val?.isSome
            then [Access.read Reg.USART_DR w.regs.USART_DR] else []))) ∧
    readsOf Reg.USART_DR ((usart2_read signedChar fuel w).world.trace.drop w.trace.length)
      = (if (usart2_read signedChar fuel w).val?.isSome then [w.regs.USART_DR] else []) ∧
    ((usart2_read signedChar fuel w).world.trace.drop w.trace.length).filter Access.isWrite
      = [] ∧
    (usart2_read signedChar fuel w).world.regs = w.regs ∧
    usart2_write fuel ch w =
      (firstReady w.sr USART_SR_TXE w.polls fuel).elim
        (Run.spin
          { regs := w.regs
            sr := w.sr
            polls := w.polls + fuel
            trace := w.trace ++ srReads w.sr w.polls fuel })
        (fun N => Run.ret ()
          { regs := w.regs.set Reg.USART_DR (intBits ch &&& 0xFF)
            sr := w.sr
            polls := w.polls + (N + 1)
            trace := w.trace ++ srReads w.sr w.polls (N + 1)
              ++ [Access.write Reg.USART_DR (intBits ch &&& 0xFF)] }) ∧
    (usart2_write fuel ch w).val?.isSome
      = (List.range fuel).any (fun k => decide (w.sr (w.polls + k) &&& USART_SR_TXE ≠ 0)) ∧
    (∀ N, (∀ k, k < N → w.sr (w.polls + k) &&& USART_SR_TXE = 0) →
      w.sr (w.polls + N) &&& USART_SR_TXE ≠ 0 → N < fuel →
      usart2_write fuel ch w =
        Run.ret ()
          { regs := w.regs.set Reg.USART_DR (intBits ch &&& 0xFF)
            sr := w.sr
            polls := w.polls + (N + 1)
            trace := w.trace ++ srReads w.sr w.polls (N + 1)
              ++ [Access.write Reg.USART_DR (intBits ch &&& 0xFF)] } ∧
      ((usart2_write fuel ch w).world.trace.drop w.trace.length).filter Access.isWrite
        = [Access.write Reg.USART_DR (intBits ch &&& 0xFF)]) ∧
    (∃ n, (usart2_write fuel ch w).world.trace
        = w.trace ++ (srReads w.sr w.polls n ++
          (if (usart2_write fuel ch w).val?.isSome
            then [Access.write Reg.USART_DR (intBits ch &&& 0xFF)] else []))) ∧
    ((usart2_write fuel ch w).world.trace.drop w.trace.length).filter Access.isWrite
      = (if (usart2_write fuel ch w).val?.isSome
          then [Access.write Reg.USART_DR (intBits ch &&& 0xFF)] else []) ∧
    readsOf Reg.USART_DR ((usart2_write fuel ch w).world.trace.drop w.trace.length) = [] ∧
    (usart2_write fuel ch w).world.regs.withoutData = w.regs.withoutData ∧
    writesTo Reg.USART_SR (usart2_init_accesses w) = [] ∧
    writesTo Reg.USART_DR (usart2_init_accesses w) = [] ∧
    writesTo Reg.USART2_CR2 (usart2_init_accesses w) = [] ∧
    writesTo Reg.USART2_CR3 (usart2_init_accesses w) = [] ∧
    (usart2_init w).regs.USART_DR = w.regs.USART_DR ∧
    (usart2_init w).regs.USART2_CR2 = w.regs.USART2_CR2 ∧
    (usart2_init w).regs.USART2_CR3 = w.regs.USART2_CR3 ∧
    (usart2_init w).sr = w.sr ∧
    (usart2_init w).polls = w.polls := by
  obtain ⟨⟨n, hrt⟩, hrr⟩ := usart2_read_footprint signedChar fuel w
  obtain ⟨⟨m, hwt⟩, hwr⟩ := usart2_write_footprint fuel ch w
  refine ⟨usart2_read_first signedChar fuel w, ?_, ?_, ⟨n, hrt⟩, ?_, ?_, hrr,
    usart2_write_first ch fuel w, ?_, ?_, ⟨m, hwt⟩, ?_, ?_, hwr, ?_, ?_, ?_, ?_,
    usart2_init_dr w, usart2_init_cr2 w, usart2_init_cr3 w,
    (usart2_init_polls w).2, (usart2_init_polls w).1⟩
  · rw [← firstReady_isSome, usart2_read_first signedChar fuel w]
    cases firstReady w.sr USART_SR_RXNE w.polls fuel <;> rfl
  · intro N hclear hset hfuel
    have hrun := usart2_read_run signedChar N fuel w hclear hset
    rw [if_pos hfuel] at hrun
    refine ⟨hrun, ?_⟩
    rw [hrun]
    simp [Run.world, readsOf_append, readsOf_DR_srReads, readsOf]
  · rw [hrt, List.drop_left, readsOf_append, readsOf_DR_srReads]
    split <;> simp [readsOf]
  · rw [hrt, List.drop_left, List.filter_append, filter_isWrite_srReads]
    split <;> simp [Access.isWrite]
  · rw [← firstReady_isSome, usart2_write_first ch fuel w]
    cases firstReady w.sr USART_SR_TXE w.polls fuel <;> rfl
  · intro N hclear hset hfuel
    have hrun := usart2_write_run N fuel ch w hclear hset
    rw [if_pos hfuel] at hrun
    refine ⟨hrun, ?_⟩
    rw [hrun]
    simp [Run.world, List.filter_append, filter_isWrite_srReads, Access.isWrite]
  · rw [hwt, List.drop_left, List.filter_append, filter_isWrite_srReads]
    split <;> simp [Access.isWrite]
  · rw [hwt, List.drop_left, readsOf_append, readsOf_DR_srReads]
    split <;> simp [readsOf]
  · rw [usart2_init_accesses_eq]; simp [writesTo]
  · rw [usart2_init_accesses_eq]; simp [writesTo]
  · rw [usart2_init_accesses_eq]; simp [writesTo]
  · rw [usart2_init_accesses_eq]; simp [writesTo]

theorem transfer_footprint_witness :
    (usart2_read true 3 (World.sim (readyAfter 2 0xA0) 0x41)).val? = some 0x41 ∧
    (usart2_read true 3 (World.sim (readyAfter 2 0xA0) 0x41)).world.trace =
      [Access.read Reg.USART_SR 0, Access.read Reg.USART_SR 0,
       Access.read Reg.USART_SR 0xA0, Access.read Reg.USART_DR 0x41] ∧
    (usart2_write 3 0x41 (World.sim (readyAfter 2 0xA0) 0x41)).val? = some () ∧
    (usart2_write 3 0x41 (World.sim (readyAfter 2 0xA0) 0x41)).world.trace =
      [Access.read Reg.USART_SR 0, Access.read Reg.USART_SR 0,
       Access.read Reg.USART_SR 0xA0, Access.write Reg.USART_DR 0x41] := by
  obtain ⟨_, _, hr, _, _, _, _, _, _, hw, _⟩ :=
    transfer_footprint true 3 0x41 (World.sim (readyAfter 2 0xA0) 0x41)
  have hr2 := (hr 2 (by decide) (by decide) (by decide)).1
  have hw2 := (hw 2 (by decide) (by decide) (by decide)).1
  refine ⟨?_, ?_, ?_, ?_⟩
  · rw [hr2]; decide
  · rw [hr2]; decide
  · rw [hw2]; rfl
  · rw [hw2]; decide

end Usart
